import Mathlib

/-!
# COMP3133 employee API: validators and resolver pipeline

A shallow embedding of `src/utils/validators.js`, `src/utils/auth.js` and
`src/graphql/resolvers.js`.

* JavaScript strings are Lean strings (lists of characters; a string with an
  unpaired surrogate has no counterpart). A character above the basic plane is
  two UTF-16 code units in JavaScript, neither of which is white space or an
  ASCII character, so the regular expression of `isEmail` and `startsWith` on
  ASCII prefixes agree on both views; `String.length` of JavaScript is
  `jsLength` (code units).
* Property types follow the GraphQL schema (`graphql/typeDefs`, not in `src/`)
  as the specification lists them: strings, and a number for `salary`; a
  property can still be missing or `null`. Ids are natural numbers.
* Numbers are rationals: every finite double is one, and `<` on them is exact.
* The document store, the upload service, bcrypt and jsonwebtoken are outside
  `src/`. The store is an explicit state (`World`) that also logs every store
  and upload call; the pure external functions are fields of `Services`.
-/

namespace COMP3133

/-! ## JavaScript values -/

/-- A JavaScript primitive value, as far as the validators look at it. -/
inductive JSVal where
  | undefined
  | null
  | bool (b : Bool)
  | num (n : ℚ)
  | str (s : String)
deriving DecidableEq

/-- An object property whose GraphQL type is `α`: missing (`undefined`),
`null`, or a value of that type. -/
inductive JSField (α : Type) where
  | undefined
  | null
  | val (a : α)
deriving DecidableEq

/-- The property of a string-typed field as a JavaScript value. -/
def JSField.strVal : JSField String → JSVal
  | .undefined => .undefined
  | .null => .null
  | .val s => .str s

/-- The property of a number-typed field as a JavaScript value. -/
def JSField.numVal : JSField ℚ → JSVal
  | .undefined => .undefined
  | .null => .null
  | .val n => .num n

/-- Truthiness of a string-typed property: `undefined`, `null` and `""` are falsy. -/
def JSField.truthy : JSField String → Bool
  | .val s => decide (s ≠ "")
  | _ => false

/-- JavaScript `String(v)` for a string-typed property (what `RegExp.test` applies). -/
def JSField.toJSString : JSField String → String
  | .undefined => "undefined"
  | .null => "null"
  | .val s => s

/-- JavaScript `v < k` for a number-typed property: `undefined` is `NaN`
(every comparison false), `null` is `0`. -/
def JSField.ltNum : JSField ℚ → ℚ → Bool
  | .undefined, _ => false
  | .null, k => decide (0 < k)
  | .val n, k => decide (n < k)

/-- JavaScript `s.length`: the number of UTF-16 code units. -/
def jsLength (s : String) : Nat :=
  (s.data.map (fun c => if 65536 ≤ c.toNat then 2 else 1)).sum

/-- JavaScript `s.startsWith(p)`. -/
def jsStartsWith (s p : String) : Bool :=
  p.data.isPrefixOf s.data

/-! ## `src/utils/validators.js` -/

/-- The characters the class `\s` of a JavaScript regular expression matches. -/
def isJsSpace (c : Char) : Bool :=
  let n := c.toNat
  n = 9 || n = 10 || n = 11 || n = 12 || n = 13 || n = 32 || n = 160 || n = 5760 ||
  (8192 ≤ n && n ≤ 8202) || n = 8232 || n = 8233 || n = 8239 || n = 8287 ||
  n = 12288 || n = 65279

/-- One item of an anchored regular expression that is a sequence of literal
characters and of `[class]+` repetitions. -/
inductive Atom where
  | lit (c : Char)
  | plus (p : Char → Bool)

/-- Whether the whole input matches the sequence of items (`^ ... $`). -/
def matchAtoms : List Char → List Atom → Bool
  | [], [] => true
  | [], _ :: _ => false
  | _ :: _, [] => false
  | c :: s, .lit d :: rest => c == d && matchAtoms s rest
  | c :: s, .plus p :: rest => p c && (matchAtoms s rest || matchAtoms s (.plus p :: rest))

/-- The class `[^\s@]`. -/
def notSpaceAt (c : Char) : Bool :=
  !isJsSpace c && c != '@'

/-- The expression `/^[^\s@]+@[^\s@]+\.[^\s@]+$/`. -/
def emailRegex : List Atom :=
  [.plus notSpaceAt, .lit '@', .plus notSpaceAt, .lit '.', .plus notSpaceAt]

/-- `isEmail(email)` of `validators.js`. -/
def isEmail (email : String) : Bool :=
  matchAtoms email.data emailRegex

/-- The test `obj[f] === undefined || obj[f] === null || obj[f] === ""` negated. -/
def JSVal.present (v : JSVal) : Bool :=
  !(v = .undefined || v = .null || v = .str "")

/-- `requireFields(obj, fields)` of `validators.js`; `obj` is the property
lookup `f ↦ obj[f]`, the result `none` is JavaScript `null`. -/
def requireFields (obj : String → JSVal) : List String → Option String
  | [] => none
  | f :: fs =>
    if obj f = .undefined ∨ obj f = .null ∨ obj f = .str "" then
      some ("Missing required field: " ++ f)
    else requireFields obj fs

/-! ## Documents, store state and external services -/

/-- A user document. -/
structure User where
  _id : Nat
  username : String
  email : String
  password : String
deriving DecidableEq

/-- A JavaScript `Date`: its time value, `none` for an invalid date. -/
abbrev JSDate := Option Int

/-- An employee document. A property assigned from the input can hold `null`,
so every property is a `JSField`. -/
structure Employee where
  _id : Nat
  first_name : JSField String
  last_name : JSField String
  email : JSField String
  gender : JSField String
  designation : JSField String
  salary : JSField ℚ
  date_of_joining : JSField JSDate
  department : JSField String
  employee_photo : JSField String
  created_at : Nat
deriving DecidableEq

/-- A thrown JavaScript error: `e.code` and `e.message`. -/
structure JsError where
  code : Option Nat
  message : String
deriving DecidableEq

/-- A call to the document store or to the upload service. -/
inductive Call where
  | userFindOneByEmail (email : String)
  | userFindOneByUsername (username : String)
  | userCreate (username email : String)
  | employeeFind
  | employeeFindById (eid : Nat)
  | employeeCreate
  | employeeSave (eid : Nat)
  | employeeFindByIdAndDelete (eid : Nat)
  | cloudinaryUpload (payload : String)
deriving DecidableEq

/-- The state outside the resolvers: both collections, the next fresh id
(also used as creation time) and the log of store and upload calls. -/
structure World where
  users : List User
  employees : List Employee
  nextId : Nat
  calls : List Call
deriving DecidableEq

/-- The external pure functions: bcrypt, jsonwebtoken with the configured
secret, the upload service's answer to a payload, and `Date` parsing. -/
structure Services where
  bcryptHash : String → String
  bcryptCompare : String → String → Bool
  jwtSign : Nat → String → String → String
  cloudinaryUpload : String → Except JsError String
  parseDate : String → JSDate

/-- The caller identity a verified token carries. -/
structure Identity where
  id : Nat
  username : String
  email : String
deriving DecidableEq

/-- The resolver context: `ctx.user` is `null` (`none`) for an anonymous caller. -/
structure Ctx where
  user : Option Identity

/-- Log one call. -/
def World.record (w : World) (c : Call) : World :=
  { w with calls := w.calls ++ [c] }

/-- The duplicate-key error of the store (`e.code === 11000`). -/
def duplicateKey : JsError :=
  { code := some 11000, message := "E11000 duplicate key error" }

/-- Modelled from the spec: the `User` model (`models/User`, not in `src/`),
`User.findOne({email})`: the first user with that email. -/
def User.findOneByEmail (w : World) (email : String) : Option User × World :=
  (w.users.find? (fun u => decide (u.email = email)), w.record (.userFindOneByEmail email))

/-- Modelled from the spec: `User.findOne({username})`. -/
def User.findOneByUsername (w : World) (username : String) : Option User × World :=
  (w.users.find? (fun u => decide (u.username = username)),
    w.record (.userFindOneByUsername username))

/-- Modelled from the spec: `User.create`; username and email are unique keys,
the new document gets a fresh id. -/
def User.create (w : World) (username email password : String) :
    Except JsError User × World :=
  let w1 := w.record (.userCreate username email)
  if w.users.any (fun u => decide (u.username = username) || decide (u.email = email)) then
    (.error duplicateKey, w1)
  else
    let user : User :=
      { _id := w.nextId, username := username, email := email, password := password }
    (.ok user, { w1 with users := w.users ++ [user], nextId := w.nextId + 1 })

/-- Modelled from the spec: the `Employee` model (`models/Employee`, not in
`src/`), `Employee.find().sort({created_at: -1})`. -/
def Employee.findAllSorted (w : World) : List Employee × World :=
  (w.employees.insertionSort (fun a b => b.created_at ≤ a.created_at),
    w.record .employeeFind)

/-- Modelled from the spec: `Employee.find(filter)`; a filter property that is
`none` was not set. -/
def Employee.find (w : World) (designation department : Option String) :
    List Employee × World :=
  (w.employees.filter (fun e =>
      (match designation with
        | some d => decide (e.designation = .val d)
        | none => true) &&
      (match department with
        | some d => decide (e.department = .val d)
        | none => true)),
    w.record .employeeFind)

/-- Modelled from the spec: `Employee.findById(eid)`. -/
def Employee.findById (w : World) (eid : Nat) : Option Employee × World :=
  (w.employees.find? (fun e => decide (e._id = eid)), w.record (.employeeFindById eid))

/-- Modelled from the spec: `Employee.create(doc)`; email is a unique key, the
new document gets a fresh id and its creation time. -/
def Employee.create (w : World) (doc : Employee) : Except JsError Employee × World :=
  let w1 := w.record .employeeCreate
  if w.employees.any (fun e => decide (e.email = doc.email)) then
    (.error duplicateKey, w1)
  else
    let employee : Employee := { doc with _id := w.nextId, created_at := w.nextId }
    (.ok employee, { w1 with employees := w.employees ++ [employee], nextId := w.nextId + 1 })

/-- Modelled from the spec: `employee.save()`; fails with a duplicate key when
another document holds the email, else replaces the stored document. -/
def Employee.save (w : World) (employee : Employee) : Except JsError Unit × World :=
  let w1 := w.record (.employeeSave employee._id)
  if w.employees.any
      (fun e => decide (e._id ≠ employee._id) && decide (e.email = employee.email)) then
    (.error duplicateKey, w1)
  else
    (.ok (), { w1 with
      employees := w.employees.map (fun e => if e._id = employee._id then employee else e) })

/-- Modelled from the spec: `Employee.findByIdAndDelete(eid)`. -/
def Employee.findByIdAndDelete (w : World) (eid : Nat) : Option Employee × World :=
  let w1 := w.record (.employeeFindByIdAndDelete eid)
  match w.employees.find? (fun e => decide (e._id = eid)) with
  | some e => (some e, { w1 with employees := w.employees.erase e })
  | none => (none, w1)

/-! ## `src/utils/auth.js` -/

/-- `signToken(user)`: signs the id, username and email of the user. -/
def signToken (svc : Services) (user : User) : String :=
  svc.jwtSign user._id user.username user.email

/-! ## Inputs and result envelopes -/

/-- The `input` of `login`. -/
structure LoginInput where
  usernameOrEmail : JSField String
  password : JSField String

/-- The `input` of `signup`. -/
structure SignupInput where
  username : JSField String
  email : JSField String
  password : JSField String

/-- The `input` of `addEmployee` and `updateEmployeeByEid`. -/
structure EmployeeInput where
  first_name : JSField String
  last_name : JSField String
  email : JSField String
  gender : JSField String
  designation : JSField String
  salary : JSField ℚ
  date_of_joining : JSField String
  department : JSField String
  employee_photo : JSField String

/-- Property lookup `input[f]` on a login input. -/
def LoginInput.get (i : LoginInput) (f : String) : JSVal :=
  if f = "usernameOrEmail" then i.usernameOrEmail.strVal
  else if f = "password" then i.password.strVal
  else .undefined

/-- Property lookup `input[f]` on a signup input. -/
def SignupInput.get (i : SignupInput) (f : String) : JSVal :=
  if f = "username" then i.username.strVal
  else if f = "email" then i.email.strVal
  else if f = "password" then i.password.strVal
  else .undefined

/-- Property lookup `input[f]` on an employee input. -/
def EmployeeInput.get (i : EmployeeInput) (f : String) : JSVal :=
  if f = "first_name" then i.first_name.strVal
  else if f = "last_name" then i.last_name.strVal
  else if f = "email" then i.email.strVal
  else if f = "gender" then i.gender.strVal
  else if f = "designation" then i.designation.strVal
  else if f = "salary" then i.salary.numVal
  else if f = "date_of_joining" then i.date_of_joining.strVal
  else if f = "department" then i.department.strVal
  else if f = "employee_photo" then i.employee_photo.strVal
  else .undefined

/-- The envelope of `login` and `signup`; an omitted property is `none`. -/
structure AuthPayload where
  success : Bool
  message : String
  token : Option String
  user : Option User
deriving DecidableEq

/-- The envelope of the single-employee operations. -/
structure EmployeeResponse where
  success : Bool
  message : String
  employee : Option Employee
deriving DecidableEq

/-- The envelope of the list operations; `employees` is always present. -/
structure EmployeesResponse where
  success : Bool
  message : String
  employees : List Employee
deriving DecidableEq

/-- The object `{success: false, message}` as an auth envelope. -/
def authFail (message : String) : AuthPayload :=
  { success := false, message := message, token := none, user := none }

/-- The object `{success: false, message}` as a single-employee envelope. -/
def employeeFail (message : String) : EmployeeResponse :=
  { success := false, message := message, employee := none }

/-- The object `{success: false, message, employees: []}`. -/
def employeesFail (message : String) : EmployeesResponse :=
  { success := false, message := message, employees := [] }

/-! ## `src/graphql/resolvers.js` -/

/-- `uploadToCloudinary(photoString)`: a falsy reference gives `null`, a
reference that is already a URL is returned as it is, anything else goes to
the upload service, whose failure is thrown. -/
def uploadToCloudinary (svc : Services) (w : World) (photoString : JSField String) :
    Except JsError (JSField String) × World :=
  match photoString with
  | .val s =>
    if s = "" then (.ok .null, w)
    else if jsStartsWith s "http://" || jsStartsWith s "https://" then (.ok (.val s), w)
    else
      match svc.cloudinaryUpload s with
      | .ok secure_url => (.ok (.val secure_url), w.record (.cloudinaryUpload s))
      | .error e => (.error e, w.record (.cloudinaryUpload s))
  | _ => (.ok .null, w)

/-- `Query.login`. The last branch cannot be reached: when `requireFields`
returns `null` both properties hold strings. -/
def login (svc : Services) (w : World) (input : LoginInput) : AuthPayload × World :=
  match requireFields input.get ["usernameOrEmail", "password"] with
  | some err => (authFail err, w)
  | none =>
    match input.usernameOrEmail, input.password with
    | .val usernameOrEmail, .val password =>
      let found :=
        if isEmail usernameOrEmail then User.findOneByEmail w usernameOrEmail
        else User.findOneByUsername w usernameOrEmail
      match found.1 with
      | none => (authFail "Invalid credentials", found.2)
      | some user =>
        if !svc.bcryptCompare password user.password then
          (authFail "Invalid credentials", found.2)
        else
          ({ success := true, message := "Login success",
             token := some (signToken svc user), user := some user }, found.2)
    | _, _ => (authFail "TypeError", w)

/-- `Query.getAllEmployees`. -/
def getAllEmployees (w : World) (ctx : Ctx) : EmployeesResponse × World :=
  match ctx.user with
  | none => (employeesFail "Unauthorized", w)
  | some _ =>
    let found := Employee.findAllSorted w
    ({ success := true, message := "Employees fetched", employees := found.1 }, found.2)

/-- `Query.searchEmployeeByEid`. -/
def searchEmployeeByEid (w : World) (eid : Nat) (ctx : Ctx) : EmployeeResponse × World :=
  match ctx.user with
  | none => (employeeFail "Unauthorized", w)
  | some _ =>
    let found := Employee.findById w eid
    match found.1 with
    | none => (employeeFail "Employee not found", found.2)
    | some employee =>
      ({ success := true, message := "Employee found", employee := some employee }, found.2)

/-- The filter value a truthy argument sets; a falsy one sets none. -/
def filterValue : JSField String → Option String
  | .val s => if s = "" then none else some s
  | _ => none

/-- `Query.searchEmployeesByDesignationOrDepartment`. -/
def searchEmployeesByDesignationOrDepartment (w : World)
    (designation department : JSField String) (ctx : Ctx) : EmployeesResponse × World :=
  match ctx.user with
  | none => (employeesFail "Unauthorized", w)
  | some _ =>
    if !designation.truthy && !department.truthy then
      (employeesFail "Provide designation or department", w)
    else
      let found := Employee.find w (filterValue designation) (filterValue department)
      ({ success := true, message := "Employees fetched", employees := found.1 }, found.2)

/-- `Mutation.signup`. The last branch cannot be reached: when `requireFields`
returns `null` the three properties hold strings. -/
def signup (svc : Services) (w : World) (input : SignupInput) : AuthPayload × World :=
  match requireFields input.get ["username", "email", "password"] with
  | some err => (authFail err, w)
  | none =>
    if !isEmail input.email.toJSString then (authFail "Invalid email format", w)
    else
      match input.username, input.email, input.password with
      | .val username, .val email, .val password =>
        if jsLength password < 6 then
          (authFail "Password must be at least 6 characters", w)
        else
          let existsUser := User.findOneByUsername w username
          match existsUser.1 with
          | some _ => (authFail "Username already exists", existsUser.2)
          | none =>
            let existsEmail := User.findOneByEmail existsUser.2 email
            match existsEmail.1 with
            | some _ => (authFail "Email already exists", existsEmail.2)
            | none =>
              let hashed := svc.bcryptHash password
              let created := User.create existsEmail.2 username email hashed
              match created.1 with
              | .error e => (authFail e.message, created.2)
              | .ok user =>
                ({ success := true, message := "Signup success",
                   token := some (signToken svc user), user := some user }, created.2)
      | _, _, _ => (authFail "TypeError", w)

/-- The `catch` of `addEmployee` and `updateEmployeeByEid`. -/
def catchEmployee (e : JsError) : EmployeeResponse :=
  if e.code = some 11000 then employeeFail "Employee email already exists"
  else employeeFail e.message

/-- `new Date(v)` for a string-typed property: `undefined` gives an invalid
date, `null` the epoch. -/
def newDate (svc : Services) : JSField String → JSDate
  | .undefined => none
  | .null => some 0
  | .val s => svc.parseDate s

/-- The document `{...input, employee_photo: photoUrl, date_of_joining: new
Date(input.date_of_joining)}`; the store sets `_id` and `created_at`. -/
def employeeDoc (svc : Services) (input : EmployeeInput) (photoUrl : JSField String) :
    Employee :=
  { _id := 0, first_name := input.first_name, last_name := input.last_name,
    email := input.email, gender := input.gender, designation := input.designation,
    salary := input.salary, date_of_joining := .val (newDate svc input.date_of_joining),
    department := input.department, employee_photo := photoUrl, created_at := 0 }

/-- `Mutation.addEmployee`. -/
def addEmployee (svc : Services) (w : World) (input : EmployeeInput) (ctx : Ctx) :
    EmployeeResponse × World :=
  match ctx.user with
  | none => (employeeFail "Unauthorized", w)
  | some _ =>
    match requireFields input.get
        ["first_name", "last_name", "email", "gender", "designation", "salary",
         "date_of_joining", "department"] with
    | some err => (employeeFail err, w)
    | none =>
      if !isEmail input.email.toJSString then (employeeFail "Invalid email format", w)
      else if input.salary.ltNum 1000 then (employeeFail "Salary must be >= 1000", w)
      else
        let uploaded := uploadToCloudinary svc w input.employee_photo
        match uploaded.1 with
        | .error e => (catchEmployee e, uploaded.2)
        | .ok photoUrl =>
          let created := Employee.create uploaded.2 (employeeDoc svc input photoUrl)
          match created.1 with
          | .error e => (catchEmployee e, created.2)
          | .ok employee =>
            ({ success := true, message := "Employee created", employee := some employee },
              created.2)

/-- One round of the loop `if (input[f] !== undefined) employee[f] = input[f]`. -/
def copyField (input : EmployeeInput) (employee : Employee) (f : String) : Employee :=
  if f = "first_name" then
    if input.first_name ≠ .undefined then { employee with first_name := input.first_name }
    else employee
  else if f = "last_name" then
    if input.last_name ≠ .undefined then { employee with last_name := input.last_name }
    else employee
  else if f = "email" then
    if input.email ≠ .undefined then { employee with email := input.email } else employee
  else if f = "gender" then
    if input.gender ≠ .undefined then { employee with gender := input.gender } else employee
  else if f = "designation" then
    if input.designation ≠ .undefined then { employee with designation := input.designation }
    else employee
  else if f = "salary" then
    if input.salary ≠ .undefined then { employee with salary := input.salary } else employee
  else if f = "department" then
    if input.department ≠ .undefined then { employee with department := input.department }
    else employee
  else employee

/-- The in-memory document after the loop over `fields` and the date assignment. -/
def applyFields (svc : Services) (input : EmployeeInput) (employee : Employee) : Employee :=
  let copied :=
    ["first_name", "last_name", "email", "gender", "designation", "salary",
     "department"].foldl (copyField input) employee
  if input.date_of_joining.truthy then
    { copied with date_of_joining := .val (newDate svc input.date_of_joining) }
  else copied

/-- `Mutation.updateEmployeeByEid`. -/
def updateEmployeeByEid (svc : Services) (w : World) (eid : Nat) (input : EmployeeInput)
    (ctx : Ctx) : EmployeeResponse × World :=
  match ctx.user with
  | none => (employeeFail "Unauthorized", w)
  | some _ =>
    let found := Employee.findById w eid
    match found.1 with
    | none => (employeeFail "Employee not found", found.2)
    | some employee =>
      if input.email.truthy && !isEmail input.email.toJSString then
        (employeeFail "Invalid email format", found.2)
      else if decide (input.salary ≠ .undefined) && input.salary.ltNum 1000 then
        (employeeFail "Salary must be >= 1000", found.2)
      else
        let uploaded :=
          if input.employee_photo.truthy then
            uploadToCloudinary svc found.2 input.employee_photo
          else (.ok employee.employee_photo, found.2)
        match uploaded.1 with
        | .error e => (catchEmployee e, uploaded.2)
        | .ok photo =>
          let updated := applyFields svc input { employee with employee_photo := photo }
          let saved := Employee.save uploaded.2 updated
          match saved.1 with
          | .error e => (catchEmployee e, saved.2)
          | .ok _ =>
            ({ success := true, message := "Employee updated", employee := some updated },
              saved.2)

/-- `Mutation.deleteEmployeeByEid`. -/
def deleteEmployeeByEid (w : World) (eid : Nat) (ctx : Ctx) : EmployeeResponse × World :=
  match ctx.user with
  | none => (employeeFail "Unauthorized", w)
  | some _ =>
    let deleted := Employee.findByIdAndDelete w eid
    match deleted.1 with
    | none => (employeeFail "Employee not found", deleted.2)
    | some employee =>
      ({ success := true, message := "Employee deleted", employee := some employee },
        deleted.2)

/-! ## Specification vocabulary and concrete instances -/

/-- A run of `[^\s@]+`: non-empty, no white space and no `@`. -/
def IsPart (u : List Char) : Prop :=
  u ≠ [] ∧ ∀ c ∈ u, isJsSpace c = false ∧ c ≠ '@'

/-- A concrete instance of the external functions. -/
def demoServices : Services where
  bcryptHash := fun p => "bcrypt:" ++ p
  bcryptCompare := fun p h => decide (h = "bcrypt:" ++ p)
  jwtSign := fun _ username _ => "jwt:" ++ username
  cloudinaryUpload := fun s => .ok ("https://res.cloudinary.com/" ++ s)
  parseDate := fun _ => some 0

/-- The empty store. -/
def emptyWorld : World :=
  { users := [], employees := [], nextId := 1, calls := [] }

/-- An authenticated caller. -/
def demoCtx : Ctx :=
  { user := some { id := 1, username := "admin", email := "admin@x.io" } }

/-- A stored employee. -/
def demoEmployee : Employee :=
  { _id := 7, first_name := .val "A", last_name := .val "B", email := .val "a@b.com",
    gender := .val "M", designation := .val "Eng", salary := .val 2000,
    date_of_joining := .val (some 0), department := .val "R&D",
    employee_photo := .val "https://img/p.png", created_at := 7 }

/-- A store that holds `demoEmployee`. -/
def demoWorld : World :=
  { users := [], employees := [demoEmployee], nextId := 8, calls := [] }

/-- The update input with every property missing. -/
def emptyInput : EmployeeInput :=
  { first_name := .undefined, last_name := .undefined, email := .undefined,
    gender := .undefined, designation := .undefined, salary := .undefined,
    date_of_joining := .undefined, department := .undefined, employee_photo := .undefined }

/-- A complete `addEmployee` input whose salary is 0. -/
def lowSalaryInput : EmployeeInput :=
  { first_name := .val "C", last_name := .val "D", email := .val "c@d.com",
    gender := .val "F", designation := .val "Eng", salary := .val 0,
    date_of_joining := .val "2024-01-01", department := .val "R&D",
    employee_photo := .undefined }

/-- The user document `signup` creates in state `w`. -/
def createdUser (svc : Services) (w : World) (u e p : String) : User :=
  { _id := w.nextId, username := u, email := e, password := svc.bcryptHash p }

/-- The state after a successful `signup`: two lookups, one creation. -/
def afterSignup (svc : Services) (w : World) (u e p : String) : World :=
  { users := w.users ++ [createdUser svc w u e p], employees := w.employees,
    nextId := w.nextId + 1,
    calls := w.calls ++ [.userFindOneByUsername u] ++ [.userFindOneByEmail e] ++
      [.userCreate u e] }

/-- Whether a stored user is the one `login` looks up for an identifier: by
email when the identifier has the shape of an email, else by username. -/
def matchesIdentifier (usernameOrEmail : String) (x : User) : Bool :=
  if isEmail usernameOrEmail then decide (x.email = usernameOrEmail)
  else decide (x.username = usernameOrEmail)

/-- A login attempt that must fail: every stored user the identifier denotes
(there may be none) has a hash the password does not match. -/
def LoginMismatch (svc : Services) (w : World) (usernameOrEmail password : String) : Prop :=
  ∀ x ∈ w.users, matchesIdentifier usernameOrEmail x = true →
    svc.bcryptCompare password x.password = false

/-- A store that holds the user `bob`, whose password is `hunter22`. -/
def demoUserWorld : World :=
  { users := [{ _id := 1, username := "bob", email := "bob@x.io",
                password := "bcrypt:hunter22" }],
    employees := [], nextId := 2, calls := [] }

/-- The value a property has after `if (i !== undefined) employee[f] = i`. -/
def pick {α : Type} [DecidableEq α] (i old : JSField α) : JSField α :=
  if i = .undefined then old else i

/-- No two stored employees with different ids share an email (the unique
index of the store). -/
def World.UniqueEmails (w : World) : Prop :=
  ∀ a ∈ w.employees, ∀ b ∈ w.employees, a.email = b.email → a._id = b._id

/-- The update input that holds a salary and nothing else. -/
def onlySalary (s : ℚ) : EmployeeInput :=
  { emptyInput with salary := .val s }

/-- The update input that holds the empty string as email and nothing else. -/
def emptyEmailInput : EmployeeInput :=
  { emptyInput with email := .val "" }

/-! ## Validators: lemmas -/

theorem present_eq_false_iff (v : JSVal) :
    v.present = false ↔ (v = .undefined ∨ v = .null ∨ v = .str "") := by
  simp only [JSVal.present, Bool.not_eq_false', Bool.or_eq_true, decide_eq_true_eq, or_assoc]

theorem present_eq_true_iff (v : JSVal) :
    v.present = true ↔ ¬ (v = .undefined ∨ v = .null ∨ v = .str "") := by
  rw [← present_eq_false_iff]
  cases v.present <;> simp

theorem requireFields_none_iff (obj : String → JSVal) (fields : List String) :
    requireFields obj fields = none ↔ ∀ f ∈ fields, (obj f).present = true := by
  induction fields with
  | nil => simp [requireFields]
  | cons f fs ih =>
    by_cases h : obj f = .undefined ∨ obj f = .null ∨ obj f = .str ""
    · have hp : (obj f).present = false := (present_eq_false_iff _).2 h
      simp [requireFields, h, hp]
    · have hp : (obj f).present = true := (present_eq_true_iff _).2 h
      simp [requireFields, h, hp, ih]

theorem requireFields_first_missing (obj : String → JSVal) (pre : List String) (f : String)
    (post : List String) (hpre : ∀ g ∈ pre, (obj g).present = true)
    (hf : (obj f).present = false) :
    requireFields obj (pre ++ f :: post) = some ("Missing required field: " ++ f) := by
  induction pre with
  | nil =>
    have h := (present_eq_false_iff _).1 hf
    simp [requireFields, h]
  | cons g gs ih =>
    have hg : ¬ (obj g = .undefined ∨ obj g = .null ∨ obj g = .str "") :=
      (present_eq_true_iff _).1 (hpre g (List.mem_cons_self _ _))
    have ih2 := ih (fun x hx => hpre x (List.mem_cons_of_mem _ hx))
    rw [List.cons_append, requireFields, if_neg hg]
    exact ih2

theorem exists_first_missing (obj : String → JSVal) (fields : List String)
    (h : ¬ ∀ f ∈ fields, (obj f).present = true) :
    ∃ pre f post, fields = pre ++ f :: post ∧ (∀ g ∈ pre, (obj g).present = true) ∧
      (obj f).present = false := by
  induction fields with
  | nil => simp at h
  | cons f fs ih =>
    by_cases hf : (obj f).present = true
    · have h2 : ¬ ∀ g ∈ fs, (obj g).present = true := by
        intro hall
        apply h
        intro g hg
        rcases List.mem_cons.1 hg with rfl | hg
        · exact hf
        · exact hall g hg
      obtain ⟨pre, g, post, hsplit, hpre, hg⟩ := ih h2
      refine ⟨f :: pre, g, post, by simp [hsplit], ?_, hg⟩
      intro x hx
      rcases List.mem_cons.1 hx with rfl | hx
      · exact hf
      · exact hpre x hx
    · exact ⟨[], f, fs, rfl, by simp, by simpa using hf⟩

/-- C8: `requireFields` returns `null` exactly when every listed name maps to a
value that is not `undefined`, `null` or `""`; otherwise there is a first such
name in the order of `fields` and the result is `"Missing required field: "`
followed by it; `0` and `false` count as present. The lookup `obj` is only
read. -/
theorem requireFields_spec (obj : String → JSVal) (fields : List String) :
    (requireFields obj fields = none ↔ ∀ f ∈ fields, (obj f).present = true) ∧
    (∀ pre f post, fields = pre ++ f :: post → (∀ g ∈ pre, (obj g).present = true) →
      (obj f).present = false →
      requireFields obj fields = some ("Missing required field: " ++ f)) ∧
    ((¬ ∀ f ∈ fields, (obj f).present = true) →
      ∃ pre f post, fields = pre ++ f :: post ∧ (∀ g ∈ pre, (obj g).present = true) ∧
        (obj f).present = false ∧
        requireFields obj fields = some ("Missing required field: " ++ f)) ∧
    (∀ v : JSVal, v.present = false ↔ (v = .undefined ∨ v = .null ∨ v = .str "")) ∧
    (JSVal.num 0).present = true ∧ (JSVal.bool false).present = true := by
  refine ⟨requireFields_none_iff obj fields, ?_, ?_, present_eq_false_iff, ?_, ?_⟩
  · intro pre f post hsplit hpre hf
    rw [hsplit]
    exact requireFields_first_missing obj pre f post hpre hf
  · intro h
    obtain ⟨pre, f, post, hsplit, hpre, hf⟩ := exists_first_missing obj fields h
    refine ⟨pre, f, post, hsplit, hpre, hf, ?_⟩
    rw [hsplit]
    exact requireFields_first_missing obj pre f post hpre hf
  · simp [JSVal.present]
  · simp [JSVal.present]

/-! ## `isEmail`: the language of the expression -/

theorem matchAtoms_nil (s : List Char) : matchAtoms s [] = true ↔ s = [] := by
  cases s <;> simp [matchAtoms]

theorem matchAtoms_lit (s : List Char) (d : Char) (rest : List Atom) :
    matchAtoms s (.lit d :: rest) = true ↔ ∃ v, s = d :: v ∧ matchAtoms v rest = true := by
  cases s with
  | nil => simp [matchAtoms]
  | cons c s =>
    simp only [matchAtoms, Bool.and_eq_true, beq_iff_eq, List.cons.injEq]
    constructor
    · rintro ⟨rfl, h⟩
      exact ⟨s, ⟨rfl, rfl⟩, h⟩
    · rintro ⟨v, ⟨rfl, rfl⟩, h⟩
      exact ⟨rfl, h⟩

theorem matchAtoms_plus (p : Char → Bool) (rest : List Atom) (s : List Char) :
    matchAtoms s (.plus p :: rest) = true ↔
      ∃ u v, s = u ++ v ∧ u ≠ [] ∧ (∀ c ∈ u, p c = true) ∧ matchAtoms v rest = true := by
  induction s with
  | nil =>
    simp only [matchAtoms, Bool.false_eq_true, false_iff]
    rintro ⟨u, v, huv, hne, -, -⟩
    cases u with
    | nil => exact hne rfl
    | cons a u => simp at huv
  | cons c s ih =>
    simp only [matchAtoms, Bool.and_eq_true, Bool.or_eq_true]
    constructor
    · rintro ⟨hc, h | h⟩
      · refine ⟨[c], s, rfl, by simp, ?_, h⟩
        intro x hx
        rw [List.mem_singleton.1 hx]
        exact hc
      · obtain ⟨u, v, huv, -, hall, hv⟩ := ih.1 h
        refine ⟨c :: u, v, by simp [huv], by simp, ?_, hv⟩
        intro x hx
        rcases List.mem_cons.1 hx with rfl | hx
        · exact hc
        · exact hall x hx
    · rintro ⟨u, v, huv, hne, hall, hv⟩
      cases u with
      | nil => exact absurd rfl hne
      | cons a u =>
        simp only [List.cons_append, List.cons.injEq] at huv
        obtain ⟨rfl, rfl⟩ := huv
        refine ⟨hall c (List.mem_cons_self _ _), ?_⟩
        cases u with
        | nil => exact Or.inl hv
        | cons b u =>
          refine Or.inr (ih.2 ⟨b :: u, v, rfl, by simp, ?_, hv⟩)
          intro x hx
          exact hall x (List.mem_cons_of_mem _ hx)

theorem notSpaceAt_iff (c : Char) : notSpaceAt c = true ↔ (isJsSpace c = false ∧ c ≠ '@') := by
  simp [notSpaceAt]

theorem isPart_iff (u : List Char) :
    (u ≠ [] ∧ ∀ c ∈ u, notSpaceAt c = true) ↔ IsPart u := by
  simp only [IsPart, notSpaceAt_iff]

theorem matchAtoms_emailRegex (s : List Char) :
    matchAtoms s emailRegex = true ↔
      ∃ l d t, s = l ++ '@' :: (d ++ '.' :: t) ∧ IsPart l ∧ IsPart d ∧ IsPart t := by
  simp only [emailRegex, matchAtoms_plus, matchAtoms_lit, matchAtoms_nil]
  constructor
  · rintro ⟨l, v1, rfl, hl, hl2, v2, rfl, d, v3, rfl, hd, hd2, v4, rfl, t, v5, rfl, ht, ht2, rfl⟩
    exact ⟨l, d, t, by simp, (isPart_iff l).1 ⟨hl, hl2⟩, (isPart_iff d).1 ⟨hd, hd2⟩,
      (isPart_iff t).1 ⟨ht, ht2⟩⟩
  · rintro ⟨l, d, t, rfl, hl, hd, ht⟩
    have hl2 := (isPart_iff l).2 hl
    have hd2 := (isPart_iff d).2 hd
    have ht2 := (isPart_iff t).2 ht
    exact ⟨l, _, rfl, hl2.1, hl2.2, _, rfl, d, _, rfl, hd2.1, hd2.2, _, rfl, t, [], by simp,
      ht2.1, ht2.2, rfl⟩

theorem IsPart.at_not_mem {u : List Char} (h : IsPart u) : '@' ∉ u :=
  fun hmem => (h.2 _ hmem).2 rfl

theorem IsPart.no_space {u : List Char} (h : IsPart u) : ∀ c ∈ u, isJsSpace c = false :=
  fun c hc => (h.2 c hc).1

theorem at_not_mem_tail {d t : List Char} (hd : IsPart d) (ht : IsPart t) :
    '@' ∉ d ++ '.' :: t := by
  intro h
  rcases List.mem_append.1 h with h | h
  · exact hd.at_not_mem h
  · rcases List.mem_cons.1 h with h | h
    · exact absurd h (by decide)
    · exact ht.at_not_mem h

/-- The split of an accepted string at its `@` is the only one. -/
theorem split_at_unique {l d t pre post : List Char} (hl : IsPart l) (hd : IsPart d)
    (ht : IsPart t) (h : l ++ '@' :: (d ++ '.' :: t) = pre ++ '@' :: post) :
    l = pre ∧ d ++ '.' :: t = post := by
  have := (List.append_cons_inj_of_not_mem hl.at_not_mem (at_not_mem_tail hd ht)).1 h
  exact ⟨this.1, this.2.2⟩

theorem isEmail_iff (s : String) :
    isEmail s = true ↔
      ∃ loc dom tld : String, s = loc ++ "@" ++ dom ++ "." ++ tld ∧
        IsPart loc.data ∧ IsPart dom.data ∧ IsPart tld.data := by
  unfold isEmail
  rw [matchAtoms_emailRegex]
  constructor
  · rintro ⟨l, d, t, hs, hl, hd, ht⟩
    refine ⟨⟨l⟩, ⟨d⟩, ⟨t⟩, ?_, hl, hd, ht⟩
    apply String.ext
    simp [hs]
  · rintro ⟨loc, dom, tld, rfl, hl, hd, ht⟩
    exact ⟨loc.data, dom.data, tld.data, by simp, hl, hd, ht⟩

theorem isEmail_count_at (s : String) (h : isEmail s = true) : s.data.count '@' = 1 := by
  obtain ⟨l, d, t, hs, hl, hd, ht⟩ := (matchAtoms_emailRegex s.data).1 h
  rw [hs]
  simp [List.count_append, List.count_cons, List.count_eq_zero_of_not_mem hl.at_not_mem,
    List.count_eq_zero_of_not_mem hd.at_not_mem, List.count_eq_zero_of_not_mem ht.at_not_mem]

theorem isEmail_no_space (s : String) (h : isEmail s = true) :
    ∀ c ∈ s.data, isJsSpace c = false := by
  obtain ⟨l, d, t, hs, hl, hd, ht⟩ := (matchAtoms_emailRegex s.data).1 h
  rw [hs]
  intro c hc
  simp only [List.mem_append, List.mem_cons] at hc
  rcases hc with hc | rfl | hc | rfl | hc
  · exact hl.no_space c hc
  · decide
  · exact hd.no_space c hc
  · decide
  · exact ht.no_space c hc

theorem isEmail_empty_local (rest : String) : isEmail ("@" ++ rest) = false := by
  cases h : isEmail ("@" ++ rest) with
  | false => rfl
  | true =>
    exfalso
    obtain ⟨l, d, t, hs, hl, hd, ht⟩ := (matchAtoms_emailRegex _).1 h
    cases l with
    | nil => exact hl.1 rfl
    | cons a l =>
      have h2 : ("@" ++ rest).data = '@' :: rest.data := rfl
      rw [h2] at hs
      simp only [List.cons_append, List.cons.injEq] at hs
      exact hl.at_not_mem (hs.1 ▸ List.mem_cons_self _ _)

theorem isEmail_no_dot (pre post : String) (hdot : '.' ∉ post.data) :
    isEmail (pre ++ "@" ++ post) = false := by
  cases h : isEmail (pre ++ "@" ++ post) with
  | false => rfl
  | true =>
    exfalso
    obtain ⟨l, d, t, hs, hl, hd, ht⟩ := (matchAtoms_emailRegex _).1 h
    have h2 : (pre ++ "@" ++ post).data = pre.data ++ '@' :: post.data := by
      simp only [String.data_append]
      rw [List.append_assoc]
      rfl
    rw [h2] at hs
    have := (split_at_unique hl hd ht hs.symm).2
    apply hdot
    rw [← this]
    simp

theorem isEmail_only_final_dot (pre post : String) (hdot : '.' ∉ post.data) :
    isEmail (pre ++ "@" ++ post ++ ".") = false := by
  cases h : isEmail (pre ++ "@" ++ post ++ ".") with
  | false => rfl
  | true =>
    exfalso
    obtain ⟨l, d, t, hs, hl, hd, ht⟩ := (matchAtoms_emailRegex _).1 h
    have h2 : (pre ++ "@" ++ post ++ ".").data = pre.data ++ '@' :: (post.data ++ ['.']) := by
      simp only [String.data_append]
      rw [List.append_assoc, List.append_assoc]
      rfl
    rw [h2] at hs
    have h3 := (split_at_unique hl hd ht hs.symm).2
    -- `t` is not empty, so the final dot is its last character
    obtain ⟨t1, c, rfl⟩ : ∃ t1 c, t = t1 ++ [c] := by
      rcases List.eq_nil_or_concat t with h0 | ⟨t1, c, h1⟩
      · exact absurd h0 ht.1
      · exact ⟨t1, c, by simpa using h1⟩
    have h4 : (d ++ '.' :: t1) ++ [c] = post.data ++ ['.'] := by
      rw [← h3]; simp
    have h5 := List.append_inj_left' h4 rfl
    apply hdot
    rw [← h5]
    simp

/-- C9 as stated fails: `"a@b.c."` is local part `"a"`, `"@"`, domain `"b.c"`,
`"."` and an empty tld, and `isEmail` accepts it. -/
theorem isEmail_empty_tld_accepted :
    ("a@b.c." : String) = "a" ++ "@" ++ "b.c" ++ "." ++ "" ∧ isEmail "a@b.c." = true := by
  constructor
  · decide
  · decide

/-- C9, amended: `isEmail s` holds exactly when `s` is `loc ++ "@" ++ dom ++ "."
++ tld` with three non-empty parts free of white space and `@`; an accepted
string has exactly one `@` and no white space; a string with an empty local
part, or with no dot after the `@`, or whose only dot after the `@` is its
last character, is rejected. -/
theorem isEmail_spec (s : String) :
    (isEmail s = true ↔
      ∃ loc dom tld : String, s = loc ++ "@" ++ dom ++ "." ++ tld ∧
        IsPart loc.data ∧ IsPart dom.data ∧ IsPart tld.data) ∧
    (isEmail s = true → s.data.count '@' = 1 ∧ ∀ c ∈ s.data, isJsSpace c = false) ∧
    (∀ rest : String, s = "@" ++ rest → isEmail s = false) ∧
    (∀ pre post : String, s = pre ++ "@" ++ post → '.' ∉ post.data → isEmail s = false) ∧
    (∀ pre post : String, s = pre ++ "@" ++ post ++ "." → '.' ∉ post.data →
      isEmail s = false) := by
  refine ⟨isEmail_iff s, fun h => ⟨isEmail_count_at s h, isEmail_no_space s h⟩, ?_, ?_, ?_⟩
  · rintro rest rfl
    exact isEmail_empty_local rest
  · rintro pre post rfl hdot
    exact isEmail_no_dot pre post hdot
  · rintro pre post rfl hdot
    exact isEmail_only_final_dot pre post hdot

/-! ## `uploadToCloudinary` -/

theorem ne_empty_of_startsWith_http (u : String)
    (h : jsStartsWith u "http://" = true ∨ jsStartsWith u "https://" = true) : u ≠ "" := by
  rintro rfl
  revert h
  decide

/-- C10: a reference that starts with `http://` or `https://` is returned as it
is and the upload service is not called (the state, call log included, is the
same), so a second application to the result returns the same URL; `null`,
`undefined` and `""` give `null`, again without a call. -/
theorem uploadToCloudinary_passthrough (svc : Services) (w : World) (u : String)
    (h : jsStartsWith u "http://" = true ∨ jsStartsWith u "https://" = true) :
    uploadToCloudinary svc w (.val u) = (.ok (.val u), w) ∧
    (∀ r w1, uploadToCloudinary svc w (.val u) = (.ok r, w1) →
      uploadToCloudinary svc w1 r = (.ok (.val u), w)) ∧
    uploadToCloudinary svc w .null = (.ok .null, w) ∧
    uploadToCloudinary svc w .undefined = (.ok .null, w) ∧
    uploadToCloudinary svc w (.val "") = (.ok .null, w) := by
  have hne := ne_empty_of_startsWith_http u h
  have hor : (jsStartsWith u "http://" || jsStartsWith u "https://") = true := by
    simpa using h
  have h1 : uploadToCloudinary svc w (.val u) = (.ok (.val u), w) := by
    simp only [uploadToCloudinary, if_neg hne, hor, if_true]
  refine ⟨h1, ?_, rfl, rfl, ?_⟩
  · intro r w1 hr
    rw [h1] at hr
    simp only [Prod.mk.injEq, Except.ok.injEq] at hr
    obtain ⟨rfl, rfl⟩ := hr
    exact h1
  · simp [uploadToCloudinary]

/-- C10 at the URL `https://img/p.png`. -/
theorem uploadToCloudinary_passthrough_witness :
    (jsStartsWith "https://img/p.png" "http://" = true ∨
      jsStartsWith "https://img/p.png" "https://" = true) ∧
    uploadToCloudinary demoServices emptyWorld (.val "https://img/p.png") =
      (.ok (.val "https://img/p.png"), emptyWorld) :=
  ⟨by decide,
   (uploadToCloudinary_passthrough demoServices emptyWorld "https://img/p.png"
      (by decide)).1⟩

/-! ## The unauthorized short-circuit -/

/-- C3: with `ctx.user` null each of the six operations returns `success =
false` and `"Unauthorized"` and leaves the state as it is, call log included
(no store or upload call); the two list operations return `employees = []`,
the four single-employee operations return no `employee`. -/
theorem unauthorized_short_circuit (svc : Services) (w : World) (eid : Nat)
    (designation department : JSField String) (input : EmployeeInput) :
    getAllEmployees w { user := none } =
      ({ success := false, message := "Unauthorized", employees := [] }, w) ∧
    searchEmployeeByEid w eid { user := none } =
      ({ success := false, message := "Unauthorized", employee := none }, w) ∧
    searchEmployeesByDesignationOrDepartment w designation department { user := none } =
      ({ success := false, message := "Unauthorized", employees := [] }, w) ∧
    addEmployee svc w input { user := none } =
      ({ success := false, message := "Unauthorized", employee := none }, w) ∧
    updateEmployeeByEid svc w eid input { user := none } =
      ({ success := false, message := "Unauthorized", employee := none }, w) ∧
    deleteEmployeeByEid w eid { user := none } =
      ({ success := false, message := "Unauthorized", employee := none }, w) :=
  ⟨rfl, rfl, rfl, rfl, rfl, rfl⟩

/-! ## The salary floor of `addEmployee` -/

/-- C4: an `addEmployee` whose salary is a number below 1000 fails for every
caller and every state, and the state is the same afterwards, call log
included: neither `Employee.create` nor the upload service was called. -/
theorem addEmployee_salary_floor (svc : Services) (w : World) (input : EmployeeInput)
    (ctx : Ctx) (s : ℚ) (hs : input.salary = .val s) (hlt : s < 1000) :
    (addEmployee svc w input ctx).1.success = false ∧
    (addEmployee svc w input ctx).1.employee = none ∧
    (addEmployee svc w input ctx).2 = w := by
  have hfloor : input.salary.ltNum 1000 = true := by
    rw [hs]
    simpa [JSField.ltNum] using hlt
  unfold addEmployee
  cases ctx.user with
  | none => exact ⟨rfl, rfl, rfl⟩
  | some ident =>
    dsimp only
    cases requireFields input.get
        ["first_name", "last_name", "email", "gender", "designation", "salary",
         "date_of_joining", "department"] with
    | some err => exact ⟨rfl, rfl, rfl⟩
    | none =>
      dsimp only
      by_cases hmail : isEmail input.email.toJSString = true
      · simp [hmail, hfloor, employeeFail]
      · simp [hmail, employeeFail]

/-- C4 at salary 0 for an otherwise complete input. -/
theorem addEmployee_salary_floor_witness :
    (0 : ℚ) < 1000 ∧
    (addEmployee demoServices demoWorld lowSalaryInput demoCtx).2 = demoWorld :=
  ⟨by norm_num,
   (addEmployee_salary_floor demoServices demoWorld lowSalaryInput demoCtx 0 rfl
      (by norm_num)).2.2⟩

/-! ## `signup` and `login` -/

theorem signup_requireFields (u e p : String) (hu0 : u ≠ "") (he0 : e ≠ "") (hp0 : p ≠ "") :
    requireFields
      (SignupInput.get { username := .val u, email := .val e, password := .val p })
      ["username", "email", "password"] = none := by
  rw [requireFields_none_iff]
  intro f hf
  simp only [List.mem_cons, List.mem_singleton, List.not_mem_nil, or_false] at hf
  rcases hf with rfl | rfl | rfl <;>
    simp [SignupInput.get, JSField.strVal, JSVal.present, hu0, he0, hp0]

theorem login_requireFields (i p : String) (hi0 : i ≠ "") (hp0 : p ≠ "") :
    requireFields (LoginInput.get { usernameOrEmail := .val i, password := .val p })
      ["usernameOrEmail", "password"] = none := by
  rw [requireFields_none_iff]
  intro f hf
  simp only [List.mem_cons, List.mem_singleton, List.not_mem_nil, or_false] at hf
  rcases hf with rfl | rfl <;>
    simp [LoginInput.get, JSField.strVal, JSVal.present, hi0, hp0]

theorem find_username_isSome (users : List User) (u : String)
    (h : ∃ x ∈ users, x.username = u) :
    ∃ y, users.find? (fun x => decide (x.username = u)) = some y := by
  obtain ⟨x, hx, hxu⟩ := h
  cases hfind : users.find? (fun x => decide (x.username = u)) with
  | some y => exact ⟨y, rfl⟩
  | none =>
    have := List.find?_eq_none.1 hfind x hx
    simp [hxu] at this

theorem find_email_isSome (users : List User) (e : String)
    (h : ∃ x ∈ users, x.email = e) :
    ∃ y, users.find? (fun x => decide (x.email = e)) = some y := by
  obtain ⟨x, hx, hxe⟩ := h
  cases hfind : users.find? (fun x => decide (x.email = e)) with
  | some y => exact ⟨y, rfl⟩
  | none =>
    have := List.find?_eq_none.1 hfind x hx
    simp [hxe] at this

theorem find_username_none (users : List User) (u : String)
    (h : ∀ x ∈ users, x.username ≠ u) :
    users.find? (fun x => decide (x.username = u)) = none := by
  rw [List.find?_eq_none]
  intro x hx
  simpa using h x hx

theorem find_email_none (users : List User) (e : String)
    (h : ∀ x ∈ users, x.email ≠ e) :
    users.find? (fun x => decide (x.email = e)) = none := by
  rw [List.find?_eq_none]
  intro x hx
  simpa using h x hx

theorem signup_username_taken (svc : Services) (w : World) (u e p : String)
    (hu0 : u ≠ "") (he0 : e ≠ "") (hp0 : p ≠ "") (hemail : isEmail e = true)
    (hlen : 6 ≤ jsLength p) (htaken : ∃ x ∈ w.users, x.username = u) :
    signup svc w { username := .val u, email := .val e, password := .val p } =
      (authFail "Username already exists", w.record (.userFindOneByUsername u)) := by
  obtain ⟨y, hy⟩ := find_username_isSome w.users u htaken
  have hlen2 : ¬ jsLength p < 6 := Nat.not_lt.2 hlen
  simp only [signup, signup_requireFields u e p hu0 he0 hp0, JSField.toJSString, hemail,
    Bool.not_true, Bool.false_eq_true, if_false, if_neg hlen2, User.findOneByUsername, hy]

theorem signup_email_taken (svc : Services) (w : World) (u e p : String)
    (hu0 : u ≠ "") (he0 : e ≠ "") (hp0 : p ≠ "") (hemail : isEmail e = true)
    (hlen : 6 ≤ jsLength p) (hfree : ∀ x ∈ w.users, x.username ≠ u)
    (htaken : ∃ x ∈ w.users, x.email = e) :
    signup svc w { username := .val u, email := .val e, password := .val p } =
      (authFail "Email already exists",
        (w.record (.userFindOneByUsername u)).record (.userFindOneByEmail e)) := by
  obtain ⟨y, hy⟩ := find_email_isSome w.users e htaken
  have hnone := find_username_none w.users u hfree
  have hlen2 : ¬ jsLength p < 6 := Nat.not_lt.2 hlen
  simp only [signup, signup_requireFields u e p hu0 he0 hp0, JSField.toJSString, hemail,
    Bool.not_true, Bool.false_eq_true, if_false, if_neg hlen2, User.findOneByUsername, hnone,
    User.findOneByEmail, World.record, hy]

theorem signup_fresh (svc : Services) (w : World) (u e p : String)
    (hu0 : u ≠ "") (he0 : e ≠ "") (hp0 : p ≠ "") (hemail : isEmail e = true)
    (hlen : 6 ≤ jsLength p) (hfreshU : ∀ x ∈ w.users, x.username ≠ u)
    (hfreshE : ∀ x ∈ w.users, x.email ≠ e) :
    signup svc w { username := .val u, email := .val e, password := .val p } =
      ({ success := true, message := "Signup success",
         token := some (signToken svc (createdUser svc w u e p)),
         user := some (createdUser svc w u e p) }, afterSignup svc w u e p) := by
  have hnoneU := find_username_none w.users u hfreshU
  have hnoneE := find_email_none w.users e hfreshE
  have hlen2 : ¬ jsLength p < 6 := Nat.not_lt.2 hlen
  have hany : w.users.any (fun x => decide (x.username = u) || decide (x.email = e)) = false := by
    rw [List.any_eq_false]
    intro x hx
    simp [hfreshU x hx, hfreshE x hx]
  simp only [signup, signup_requireFields u e p hu0 he0 hp0, JSField.toJSString, hemail,
    Bool.not_true, Bool.false_eq_true, if_false, if_neg hlen2, User.findOneByUsername, hnoneU,
    User.findOneByEmail, World.record, hnoneE, User.create, hany, createdUser, afterSignup]

theorem login_eval (svc : Services) (w : World) (i p : String) (hi0 : i ≠ "")
    (hp0 : p ≠ "") (x : User)
    (hfind : (if isEmail i then w.users.find? (fun y => decide (y.email = i))
      else w.users.find? (fun y => decide (y.username = i))) = some x)
    (hok : svc.bcryptCompare p x.password = true) :
    (login svc w { usernameOrEmail := .val i, password := .val p }).1 =
      { success := true, message := "Login success", token := some (signToken svc x),
        user := some x } := by
  by_cases hmail : isEmail i = true
  · simp only [hmail, if_true] at hfind
    simp only [login, login_requireFields i p hi0 hp0, hmail, if_true, User.findOneByEmail,
      hfind, hok, Bool.not_true, Bool.false_eq_true, if_false]
  · have hmail2 : isEmail i = false := by simpa using hmail
    simp only [hmail2, Bool.false_eq_true, if_false] at hfind
    simp only [login, login_requireFields i p hi0 hp0, hmail2, Bool.false_eq_true, if_false,
      User.findOneByUsername, hfind, hok, Bool.not_true]

theorem login_fail_of_mismatch (svc : Services) (w : World) (i p : String) (hi0 : i ≠ "")
    (hp0 : p ≠ "") (h : LoginMismatch svc w i p) :
    (login svc w { usernameOrEmail := .val i, password := .val p }).1 =
      authFail "Invalid credentials" := by
  by_cases hmail : isEmail i = true
  · cases hfind : w.users.find? (fun y => decide (y.email = i)) with
    | none =>
      simp only [login, login_requireFields i p hi0 hp0, hmail, if_true, User.findOneByEmail,
        hfind]
    | some x =>
      have hx := List.mem_of_find?_eq_some hfind
      have hm : matchesIdentifier i x = true := by
        have := List.find?_some hfind
        simpa [matchesIdentifier, hmail] using this
      have hbad := h x hx hm
      simp only [login, login_requireFields i p hi0 hp0, hmail, if_true, User.findOneByEmail,
        hfind, hbad, Bool.not_false]
  · have hmail2 : isEmail i = false := by simpa using hmail
    cases hfind : w.users.find? (fun y => decide (y.username = i)) with
    | none =>
      simp only [login, login_requireFields i p hi0 hp0, hmail2, Bool.false_eq_true, if_false,
        User.findOneByUsername, hfind]
    | some x =>
      have hx := List.mem_of_find?_eq_some hfind
      have hm : matchesIdentifier i x = true := by
        have := List.find?_some hfind
        simpa [matchesIdentifier, hmail] using this
      have hbad := h x hx hm
      simp only [login, login_requireFields i p hi0 hp0, hmail2, Bool.false_eq_true, if_false,
        User.findOneByUsername, hfind, hbad, Bool.not_false, if_true]

/-- The last branch of `login` is dead: once `requireFields` returns `null`
both properties hold non-empty strings. -/
theorem login_fields_of_requireFields (input : LoginInput)
    (h : requireFields input.get ["usernameOrEmail", "password"] = none) :
    ∃ i p, input.usernameOrEmail = .val i ∧ input.password = .val p ∧ i ≠ "" ∧ p ≠ "" := by
  rw [requireFields_none_iff] at h
  have h1 := h "usernameOrEmail" (by simp)
  have h2 := h "password" (by simp)
  obtain ⟨i, p⟩ := input
  cases i <;> cases p <;>
    simp_all [LoginInput.get, JSField.strVal, JSVal.present]

/-- The last branch of `signup` is dead: once `requireFields` returns `null`
the three properties hold non-empty strings. -/
theorem signup_fields_of_requireFields (input : SignupInput)
    (h : requireFields input.get ["username", "email", "password"] = none) :
    ∃ u e p, input.username = .val u ∧ input.email = .val e ∧ input.password = .val p ∧
      u ≠ "" ∧ e ≠ "" ∧ p ≠ "" := by
  rw [requireFields_none_iff] at h
  have h1 := h "username" (by simp)
  have h2 := h "email" (by simp)
  have h3 := h "password" (by simp)
  obtain ⟨u, e, p⟩ := input
  cases u <;> cases e <;> cases p <;>
    simp_all [SignupInput.get, JSField.strVal, JSVal.present]

/-- C7: for a signup input that passes validation, a taken username gives
`"Username already exists"` (whether or not the email is taken too), otherwise
a taken email gives `"Email already exists"`; in both cases the state only
gains the lookups in its call log: users, employees and the next id are the
same, and `User.create` was not called. -/
theorem signup_conflict_messages (svc : Services) (w : World) (u e p : String)
    (hu0 : u ≠ "") (he0 : e ≠ "") (hp0 : p ≠ "") (hemail : isEmail e = true)
    (hlen : 6 ≤ jsLength p) :
    ((∃ x ∈ w.users, x.username = u) →
      signup svc w { username := .val u, email := .val e, password := .val p } =
        (authFail "Username already exists", w.record (.userFindOneByUsername u))) ∧
    ((∀ x ∈ w.users, x.username ≠ u) → (∃ x ∈ w.users, x.email = e) →
      signup svc w { username := .val u, email := .val e, password := .val p } =
        (authFail "Email already exists",
          (w.record (.userFindOneByUsername u)).record (.userFindOneByEmail e))) ∧
    (((∃ x ∈ w.users, x.username = u) ∨ (∃ x ∈ w.users, x.email = e)) →
      (signup svc w { username := .val u, email := .val e, password := .val p }).1.success
        = false ∧
      (signup svc w { username := .val u, email := .val e, password := .val p }).2.users
        = w.users ∧
      (signup svc w { username := .val u, email := .val e, password := .val p }).2.employees
        = w.employees ∧
      (signup svc w { username := .val u, email := .val e, password := .val p }).2.nextId
        = w.nextId) := by
  refine ⟨signup_username_taken svc w u e p hu0 he0 hp0 hemail hlen,
    signup_email_taken svc w u e p hu0 he0 hp0 hemail hlen, ?_⟩
  intro h
  by_cases hU : ∃ x ∈ w.users, x.username = u
  · rw [signup_username_taken svc w u e p hu0 he0 hp0 hemail hlen hU]
    exact ⟨rfl, rfl, rfl, rfl⟩
  · have hfree : ∀ x ∈ w.users, x.username ≠ u := fun x hx hxu => hU ⟨x, hx, hxu⟩
    have hE : ∃ x ∈ w.users, x.email = e := h.resolve_left hU
    rw [signup_email_taken svc w u e p hu0 he0 hp0 hemail hlen hfree hE]
    exact ⟨rfl, rfl, rfl, rfl⟩

/-- C7 for a second signup as `bob` (with a new email). -/
theorem signup_conflict_messages_witness :
    ("bob" : String) ≠ "" ∧ ("rob@x.io" : String) ≠ "" ∧ ("secret" : String) ≠ "" ∧
    isEmail "rob@x.io" = true ∧ 6 ≤ jsLength "secret" ∧
    signup demoServices demoUserWorld
        { username := .val "bob", email := .val "rob@x.io", password := .val "secret" } =
      (authFail "Username already exists",
        demoUserWorld.record (.userFindOneByUsername "bob")) :=
  ⟨by decide, by decide, by decide, by decide, by decide,
   (signup_conflict_messages demoServices demoUserWorld "bob" "rob@x.io" "secret"
      (by decide) (by decide) (by decide) (by decide) (by decide)).1
      ⟨_, List.mem_singleton.2 rfl, rfl⟩⟩

/-- C1 as stated fails: `a@b.c` is a valid, unused username; after a successful
signup with it, `login` with that username looks it up as an email, finds no
user and answers `"Invalid credentials"`. -/
theorem signup_then_login_by_email_shaped_username :
    ("a@b.c" : String) ≠ "" ∧ ("d@e.f" : String) ≠ "" ∧ ("secret" : String) ≠ "" ∧
    isEmail "d@e.f" = true ∧ 6 ≤ jsLength "secret" ∧
    (∀ x ∈ emptyWorld.users, x.username ≠ "a@b.c" ∧ x.email ≠ "d@e.f") ∧
    demoServices.bcryptCompare "secret" (demoServices.bcryptHash "secret") = true ∧
    (signup demoServices emptyWorld
      { username := .val "a@b.c", email := .val "d@e.f", password := .val "secret" }).1.success
      = true ∧
    (login demoServices
      (signup demoServices emptyWorld
        { username := .val "a@b.c", email := .val "d@e.f", password := .val "secret" }).2
      { usernameOrEmail := .val "a@b.c", password := .val "secret" }).1 =
      authFail "Invalid credentials" := by
  refine ⟨by decide, by decide, by decide, by decide, by decide, ?_, by decide, by decide,
    by decide⟩
  intro x hx
  simp [emptyWorld] at hx

/-- C1, amended: for a valid signup input with unused username and email,
`signup` succeeds with a token and creates the user; in the resulting state
`login` with the email and the same password succeeds as that user, and
`login` with the username succeeds as that user when the username does not
have the shape of an email or equals the email (given that bcrypt accepts the
password against its own hash). -/
theorem signup_then_login (svc : Services) (w : World) (u e p : String)
    (hu0 : u ≠ "") (he0 : e ≠ "") (hp0 : p ≠ "") (hemail : isEmail e = true)
    (hlen : 6 ≤ jsLength p) (hfreshU : ∀ x ∈ w.users, x.username ≠ u)
    (hfreshE : ∀ x ∈ w.users, x.email ≠ e)
    (hbcrypt : svc.bcryptCompare p (svc.bcryptHash p) = true) :
    signup svc w { username := .val u, email := .val e, password := .val p } =
      ({ success := true, message := "Signup success",
         token := some (signToken svc (createdUser svc w u e p)),
         user := some (createdUser svc w u e p) }, afterSignup svc w u e p) ∧
    (login svc
      (signup svc w { username := .val u, email := .val e, password := .val p }).2
      { usernameOrEmail := .val e, password := .val p }).1 =
      { success := true, message := "Login success",
        token := some (signToken svc (createdUser svc w u e p)),
        user := some (createdUser svc w u e p) } ∧
    ((isEmail u = false ∨ u = e) →
      (login svc
        (signup svc w { username := .val u, email := .val e, password := .val p }).2
        { usernameOrEmail := .val u, password := .val p }).1 =
        { success := true, message := "Login success",
          token := some (signToken svc (createdUser svc w u e p)),
          user := some (createdUser svc w u e p) }) := by
  have hsign := signup_fresh svc w u e p hu0 he0 hp0 hemail hlen hfreshU hfreshE
  have hbyEmail : (afterSignup svc w u e p).users.find? (fun y => decide (y.email = e)) =
      some (createdUser svc w u e p) := by
    simp [afterSignup, List.find?_append, find_email_none w.users e hfreshE, createdUser]
  have hbyName : (afterSignup svc w u e p).users.find? (fun y => decide (y.username = u)) =
      some (createdUser svc w u e p) := by
    simp [afterSignup, List.find?_append, find_username_none w.users u hfreshU, createdUser]
  have hpw : svc.bcryptCompare p (createdUser svc w u e p).password = true := hbcrypt
  refine ⟨hsign, ?_, ?_⟩
  · rw [hsign]
    apply login_eval svc _ e p he0 hp0 _ _ hpw
    simp only [hemail, if_true]
    exact hbyEmail
  · intro hshape
    rw [hsign]
    rcases hshape with hno | rfl
    · apply login_eval svc _ u p hu0 hp0 _ _ hpw
      simp only [hno, Bool.false_eq_true, if_false]
      exact hbyName
    · apply login_eval svc _ u p hu0 hp0 _ _ hpw
      simp only [hemail, if_true]
      exact hbyEmail

/-- C1, amended, for the new user `alice` in the empty store. -/
theorem signup_then_login_witness :
    ("alice" : String) ≠ "" ∧ ("alice@x.io" : String) ≠ "" ∧ ("secret" : String) ≠ "" ∧
    isEmail "alice@x.io" = true ∧ 6 ≤ jsLength "secret" ∧
    (login demoServices
      (signup demoServices emptyWorld
        { username := .val "alice", email := .val "alice@x.io",
          password := .val "secret" }).2
      { usernameOrEmail := .val "alice", password := .val "secret" }).1.success = true :=
  ⟨by decide, by decide, by decide, by decide, by decide,
   congrArg AuthPayload.success
    ((signup_then_login demoServices emptyWorld "alice" "alice@x.io" "secret"
      (by decide) (by decide) (by decide) (by decide) (by decide)
      (fun x hx => by simp [emptyWorld] at hx) (fun x hx => by simp [emptyWorld] at hx)
      (by decide)).2.2 (Or.inl (by decide)))⟩

/-- C2: a login with non-empty identifier and password that finds no user, and
one that finds a user whose hash the password does not match, both return
exactly `{success: false, message: "Invalid credentials"}` with no token and
no user, so the two results are equal. -/
theorem login_failures_indistinguishable (svc : Services) (w1 w2 : World)
    (i1 p1 i2 p2 : String) (hi1 : i1 ≠ "") (hp1 : p1 ≠ "") (hi2 : i2 ≠ "") (hp2 : p2 ≠ "")
    (hnone : ∀ x ∈ w1.users, matchesIdentifier i1 x = false)
    (hbad : LoginMismatch svc w2 i2 p2) :
    (login svc w1 { usernameOrEmail := .val i1, password := .val p1 }).1 =
      { success := false, message := "Invalid credentials", token := none, user := none } ∧
    (login svc w2 { usernameOrEmail := .val i2, password := .val p2 }).1 =
      { success := false, message := "Invalid credentials", token := none, user := none } ∧
    (login svc w1 { usernameOrEmail := .val i1, password := .val p1 }).1 =
      (login svc w2 { usernameOrEmail := .val i2, password := .val p2 }).1 := by
  have hmis1 : LoginMismatch svc w1 i1 p1 := by
    intro x hx hm
    rw [hnone x hx] at hm
    exact absurd hm (by decide)
  have h1 := login_fail_of_mismatch svc w1 i1 p1 hi1 hp1 hmis1
  have h2 := login_fail_of_mismatch svc w2 i2 p2 hi2 hp2 hbad
  exact ⟨h1, h2, h1.trans h2.symm⟩

/-- C2 for an unknown identifier and for `bob` with a wrong password. -/
theorem login_failures_indistinguishable_witness :
    ("ghost" : String) ≠ "" ∧ ("bob" : String) ≠ "" ∧ ("wrong1" : String) ≠ "" ∧
    (∃ x ∈ demoUserWorld.users, matchesIdentifier "bob" x = true) ∧
    (login demoServices emptyWorld
        { usernameOrEmail := .val "ghost", password := .val "wrong1" }).1 =
      (login demoServices demoUserWorld
        { usernameOrEmail := .val "bob", password := .val "wrong1" }).1 :=
  ⟨by decide, by decide, by decide, ⟨_, List.mem_singleton.2 rfl, by decide⟩,
   (login_failures_indistinguishable demoServices emptyWorld demoUserWorld
      "ghost" "wrong1" "bob" "wrong1" (by decide) (by decide) (by decide) (by decide)
      (fun x hx => by simp [emptyWorld] at hx)
      (fun x hx _ => by
        rw [List.mem_singleton.1 hx]
        decide)).2.2⟩

/-! ## `updateEmployeeByEid` -/

theorem copyField_first_name (input : EmployeeInput) (e : Employee) :
    copyField input e "first_name" = { e with first_name := pick input.first_name e.first_name } := by
  unfold copyField pick
  by_cases h : input.first_name = .undefined <;> simp [h]

theorem copyField_last_name (input : EmployeeInput) (e : Employee) :
    copyField input e "last_name" = { e with last_name := pick input.last_name e.last_name } := by
  unfold copyField pick
  by_cases h : input.last_name = .undefined <;> simp [h]

theorem copyField_email (input : EmployeeInput) (e : Employee) :
    copyField input e "email" = { e with email := pick input.email e.email } := by
  unfold copyField pick
  by_cases h : input.email = .undefined <;> simp [h]

theorem copyField_gender (input : EmployeeInput) (e : Employee) :
    copyField input e "gender" = { e with gender := pick input.gender e.gender } := by
  unfold copyField pick
  by_cases h : input.gender = .undefined <;> simp [h]

theorem copyField_designation (input : EmployeeInput) (e : Employee) :
    copyField input e "designation" = { e with designation := pick input.designation e.designation } := by
  unfold copyField pick
  by_cases h : input.designation = .undefined <;> simp [h]

theorem copyField_salary (input : EmployeeInput) (e : Employee) :
    copyField input e "salary" = { e with salary := pick input.salary e.salary } := by
  unfold copyField pick
  by_cases h : input.salary = .undefined <;> simp [h]

theorem copyField_department (input : EmployeeInput) (e : Employee) :
    copyField input e "department" = { e with department := pick input.department e.department } := by
  unfold copyField pick
  by_cases h : input.department = .undefined <;> simp [h]

theorem applyFields_eq (svc : Services) (input : EmployeeInput) (e : Employee) :
    applyFields svc input e =
      { _id := e._id,
        first_name := pick input.first_name e.first_name,
        last_name := pick input.last_name e.last_name,
        email := pick input.email e.email,
        gender := pick input.gender e.gender,
        designation := pick input.designation e.designation,
        salary := pick input.salary e.salary,
        date_of_joining :=
          if input.date_of_joining.truthy then .val (newDate svc input.date_of_joining)
          else e.date_of_joining,
        department := pick input.department e.department,
        employee_photo := e.employee_photo,
        created_at := e.created_at } := by
  simp only [applyFields, List.foldl, copyField_first_name, copyField_last_name,
    copyField_email, copyField_gender, copyField_designation, copyField_salary,
    copyField_department]
  by_cases h : input.date_of_joining.truthy = true
  · simp only [h, if_true]
  · simp only [h, if_false, Bool.false_eq_true]

theorem catchEmployee_success (e : JsError) : (catchEmployee e).success = false := by
  unfold catchEmployee
  split_ifs <;> rfl

theorem uploadToCloudinary_employees (svc : Services) (w : World) (photo : JSField String) :
    (uploadToCloudinary svc w photo).2.employees = w.employees := by
  unfold uploadToCloudinary
  cases photo with
  | undefined => rfl
  | null => rfl
  | val s =>
    dsimp only
    split_ifs
    · rfl
    · rfl
    · cases svc.cloudinaryUpload s <;> rfl

theorem find_of_find_id {l : List Employee} {eid : Nat} {e : Employee}
    (h : l.find? (fun x => decide (x._id = eid)) = some e) : e._id = eid ∧ e ∈ l := by
  have h1 := List.find?_some h
  exact ⟨by simpa using h1, List.mem_of_find?_eq_some h⟩

/-- After `save` the lookup by id returns the saved document. -/
theorem find_after_replace (l : List Employee) (eid : Nat) (e saved : Employee)
    (h : l.find? (fun x => decide (x._id = eid)) = some e) (hid : saved._id = eid) :
    (l.map (fun x => if x._id = saved._id then saved else x)).find?
      (fun x => decide (x._id = eid)) = some saved := by
  induction l with
  | nil => simp at h
  | cons x xs ih =>
    rw [List.map_cons]
    by_cases hx : x._id = eid
    · rw [if_pos (hx.trans hid.symm)]
      exact List.find?_cons_of_pos _ (by simpa using hid)
    · have hx2 : ¬ x._id = saved._id := by rw [hid]; exact hx
      rw [if_neg hx2, List.find?_cons_of_neg _ (by simpa using hx)]
      rw [List.find?_cons_of_neg _ (by simpa using hx)] at h
      exact ih h

theorem applyFields_id (svc : Services) (input : EmployeeInput) (e : Employee) :
    (applyFields svc input e)._id = e._id := by
  rw [applyFields_eq]

theorem save_ok_employees (w2 : World) (updated : Employee) (u : Unit) (w3 : World)
    (h : Employee.save w2 updated = (.ok u, w3)) :
    w3.employees = w2.employees.map (fun e => if e._id = updated._id then updated else e) := by
  unfold Employee.save at h
  split_ifs at h
  · simp at h
  · simp only [Prod.mk.injEq] at h
    rw [← h.2]

/-- What a successful `updateEmployeeByEid` returns and stores. -/
theorem update_success (svc : Services) (w : World) (eid : Nat) (input : EmployeeInput)
    (ctx : Ctx) (ident : Identity) (employee : Employee) (hauth : ctx.user = some ident)
    (hfound : w.employees.find? (fun x => decide (x._id = eid)) = some employee)
    (hsucc : (updateEmployeeByEid svc w eid input ctx).1.success = true) :
    ∃ photo, (input.employee_photo.truthy = false → photo = employee.employee_photo) ∧
      (updateEmployeeByEid svc w eid input ctx).1.employee =
        some (applyFields svc input { employee with employee_photo := photo }) ∧
      (updateEmployeeByEid svc w eid input ctx).2.employees =
        w.employees.map (fun x =>
          if x._id = employee._id then
            applyFields svc input { employee with employee_photo := photo }
          else x) := by
  unfold updateEmployeeByEid at hsucc ⊢
  simp only [hauth, Employee.findById, hfound] at hsucc ⊢
  by_cases h1 : (input.email.truthy && !isEmail input.email.toJSString) = true
  · rw [if_pos h1] at hsucc
    simp [employeeFail] at hsucc
  · rw [if_neg h1] at hsucc ⊢
    by_cases h2 : (decide (input.salary ≠ .undefined) && input.salary.ltNum 1000) = true
    · rw [if_pos h2] at hsucc
      simp [employeeFail] at hsucc
    · rw [if_neg h2] at hsucc ⊢
      generalize hU : (if input.employee_photo.truthy = true then
          uploadToCloudinary svc (w.record (.employeeFindById eid)) input.employee_photo
        else (Except.ok employee.employee_photo, w.record (.employeeFindById eid))) = U
        at hsucc ⊢
      have hUemp : U.2.employees = w.employees := by
        rw [← hU]
        split_ifs
        · exact uploadToCloudinary_employees svc _ _
        · rfl
      have hUphoto : input.employee_photo.truthy = false →
          U.1 = .ok employee.employee_photo := by
        intro hf
        rw [← hU]
        simp [hf]
      obtain ⟨r, w2⟩ := U
      cases r with
      | error err => simp [catchEmployee_success] at hsucc
      | ok photo =>
        simp only at hsucc hUemp hUphoto ⊢
        refine ⟨photo, fun hf => ?_, ?_⟩
        · have := hUphoto hf
          simpa using this
        · generalize hS : Employee.save w2
              (applyFields svc input { employee with employee_photo := photo }) = S
            at hsucc ⊢
          obtain ⟨r2, w3⟩ := S
          cases r2 with
          | error err => simp [catchEmployee_success] at hsucc
          | ok u =>
            refine ⟨rfl, ?_⟩
            have := save_ok_employees w2 _ u w3 hS
            simp only [applyFields_id] at this
            simp only
            rw [this, hUemp]

theorem save_any_false_of_unique (w : World) (employee updated : Employee)
    (hinv : w.UniqueEmails) (hmem : employee ∈ w.employees)
    (hid : updated._id = employee._id) (hemail : updated.email = employee.email) :
    w.employees.any
      (fun e => decide (e._id ≠ updated._id) && decide (e.email = updated.email)) = false := by
  rw [List.any_eq_false]
  intro x hx
  rw [hid, hemail]
  by_cases hxe : x.email = employee.email
  · have := hinv x hx employee hmem hxe
    simp [this]
  · simp [hxe]

theorem update_only_salary (svc : Services) (w : World) (eid : Nat) (ctx : Ctx)
    (ident : Identity) (employee : Employee) (hauth : ctx.user = some ident)
    (hfound : w.employees.find? (fun x => decide (x._id = eid)) = some employee)
    (hinv : w.UniqueEmails) (s : ℚ) (hs : 1000 ≤ s) :
    updateEmployeeByEid svc w eid (onlySalary s) ctx =
      ({ success := true, message := "Employee updated",
         employee := some { employee with salary := .val s } },
       { users := w.users,
         employees := w.employees.map
           (fun x => if x._id = employee._id then { employee with salary := .val s } else x),
         nextId := w.nextId,
         calls := w.calls ++ [.employeeFindById eid] ++ [.employeeSave employee._id] }) := by
  have happly : applyFields svc (onlySalary s)
      { employee with employee_photo := employee.employee_photo } =
      { employee with salary := .val s } := by
    rw [applyFields_eq]
    simp [onlySalary, emptyInput, pick, JSField.truthy]
  have hmem := (find_of_find_id hfound).2
  have hany := save_any_false_of_unique (w.record (.employeeFindById eid)) employee
    { employee with salary := .val s } hinv hmem rfl rfl
  have hfloor : (onlySalary s).salary.ltNum 1000 = false := by
    simp [onlySalary, JSField.ltNum, hs]
  have hmailF : (onlySalary s).email.truthy = false := rfl
  have hphF : (onlySalary s).employee_photo.truthy = false := rfl
  unfold updateEmployeeByEid
  simp only [hauth, Employee.findById, hfound, hmailF, hphF, hfloor, Bool.false_and,
    Bool.and_false, Bool.false_eq_true, if_false, happly, Employee.save, hany]
  rfl

/-- C5: for an authenticated caller and an existing employee (in a store whose
emails are unique), an update that holds only a salary `s ≥ 1000` succeeds and
the saved document is the old one with `salary = s`; and whenever an update
succeeds, every property missing from the input has its old value in the
saved document, which is the one the store then returns for the id. -/
theorem update_frame (svc : Services) (w : World) (eid : Nat) (ctx : Ctx)
    (ident : Identity) (employee : Employee) (hauth : ctx.user = some ident)
    (hfound : w.employees.find? (fun x => decide (x._id = eid)) = some employee)
    (hinv : w.UniqueEmails) :
    (∀ s : ℚ, 1000 ≤ s →
      (updateEmployeeByEid svc w eid (onlySalary s) ctx).1 =
        { success := true, message := "Employee updated",
          employee := some { employee with salary := .val s } } ∧
      (updateEmployeeByEid svc w eid (onlySalary s) ctx).2.employees.find?
        (fun x => decide (x._id = eid)) = some { employee with salary := .val s }) ∧
    (∀ input : EmployeeInput,
      (updateEmployeeByEid svc w eid input ctx).1.success = true →
      ∃ saved : Employee,
        (updateEmployeeByEid svc w eid input ctx).1.employee = some saved ∧
        (updateEmployeeByEid svc w eid input ctx).2.employees.find?
          (fun x => decide (x._id = eid)) = some saved ∧
        saved._id = employee._id ∧ saved.created_at = employee.created_at ∧
        (input.first_name = .undefined → saved.first_name = employee.first_name) ∧
        (input.last_name = .undefined → saved.last_name = employee.last_name) ∧
        (input.email = .undefined → saved.email = employee.email) ∧
        (input.gender = .undefined → saved.gender = employee.gender) ∧
        (input.designation = .undefined → saved.designation = employee.designation) ∧
        (input.salary = .undefined → saved.salary = employee.salary) ∧
        (input.date_of_joining = .undefined →
          saved.date_of_joining = employee.date_of_joining) ∧
        (input.department = .undefined → saved.department = employee.department) ∧
        (input.employee_photo = .undefined →
          saved.employee_photo = employee.employee_photo)) := by
  have hid := (find_of_find_id hfound).1
  constructor
  · intro s hs
    rw [update_only_salary svc w eid ctx ident employee hauth hfound hinv s hs]
    exact ⟨rfl, find_after_replace w.employees eid employee { employee with salary := .val s }
      hfound hid⟩
  · intro input hsucc
    obtain ⟨photo, hphoto, hemp, hstore⟩ :=
      update_success svc w eid input ctx ident employee hauth hfound hsucc
    refine ⟨_, hemp, ?_, ?_⟩
    · rw [hstore]
      have h := find_after_replace w.employees eid employee
        (applyFields svc input { employee with employee_photo := photo }) hfound
        (by rw [applyFields_id]; exact hid)
      rw [applyFields_id] at h
      exact h
    · rw [applyFields_eq]
      refine ⟨rfl, rfl, ?_, ?_, ?_, ?_, ?_, ?_, ?_, ?_, ?_⟩
      · intro h; simp [pick, h]
      · intro h; simp [pick, h]
      · intro h; simp [pick, h]
      · intro h; simp [pick, h]
      · intro h; simp [pick, h]
      · intro h; simp [pick, h]
      · intro h; simp [h, JSField.truthy]
      · intro h; simp [pick, h]
      · intro h
        exact hphoto (by simp [h, JSField.truthy])

/-- C5 for the update `{salary: 5000}` of the stored employee 7. -/
theorem update_frame_witness :
    demoCtx.user = some { id := 1, username := "admin", email := "admin@x.io" } ∧
    demoWorld.employees.find? (fun x => decide (x._id = 7)) = some demoEmployee ∧
    demoWorld.UniqueEmails ∧
    (updateEmployeeByEid demoServices demoWorld 7 (onlySalary 5000) demoCtx).1 =
      { success := true, message := "Employee updated",
        employee := some { demoEmployee with salary := .val 5000 } } :=
  ⟨rfl, by decide,
   fun a ha b hb _ => by
     rw [List.mem_singleton.1 ha, List.mem_singleton.1 hb],
   ((update_frame demoServices demoWorld 7 demoCtx
      { id := 1, username := "admin", email := "admin@x.io" } demoEmployee rfl (by decide)
      (fun a ha b hb _ => by
        rw [List.mem_singleton.1 ha, List.mem_singleton.1 hb])).1 5000 (by norm_num)).1⟩

/-- A supplied email that is a non-empty string without the shape of an email
is rejected after the lookup, before any other call. -/
theorem update_invalid_email_rejected (svc : Services) (w : World) (eid : Nat)
    (input : EmployeeInput) (ctx : Ctx) (ident : Identity) (employee : Employee)
    (hauth : ctx.user = some ident)
    (hfound : w.employees.find? (fun x => decide (x._id = eid)) = some employee)
    (e : String) (he : input.email = .val e) (hne : e ≠ "") (hbad : isEmail e = false) :
    updateEmployeeByEid svc w eid input ctx =
      (employeeFail "Invalid email format", w.record (.employeeFindById eid)) := by
  unfold updateEmployeeByEid
  simp only [hauth, Employee.findById, hfound, he, JSField.truthy, JSField.toJSString, hbad]
  simp [hne]

/-- C6 fails at the email `""`: it is supplied and is not an email, yet the
update of the stored employee 7 answers `"Employee updated"` and the stored
email becomes `""`. -/
theorem update_accepts_empty_email :
    isEmail "" = false ∧
    (updateEmployeeByEid demoServices demoWorld 7 emptyEmailInput demoCtx).1.success = true ∧
    (updateEmployeeByEid demoServices demoWorld 7 emptyEmailInput demoCtx).1.message =
      "Employee updated" ∧
    (updateEmployeeByEid demoServices demoWorld 7 emptyEmailInput demoCtx).2.employees.map
      (fun x => x.email) = [.val ""] := by
  refine ⟨by decide, by decide, by decide, by decide⟩

end COMP3133
